import Mathlib

/-!
Verification development for the doubletree repository.

The repository implements a lazy hierarchical query-tree browser
(src/doubletree.py) over a Bound Query abstraction provided by
rdf_util/pl.py.  The tree-node layer (RPQ_TreeNode / RPQ_ParentNode /
RPQ_Node), the InstanceView / ViewList widget logic and the dispatch
tables are embedded here faithfully from src/doubletree.py.  The Bound
Query class itself lives in rdf_util/pl.py, which is not part of the
source tree; its interface (keys, child_query, len, copy, getitem) is
modelled from the spec (sections 3 and 4.1).

Python object identity and field mutation (the sibling caches of
RPQ_TreeNode) are embedded with an explicit heap: node ids are indices
into a list of node records, and the navigation methods are functions
from state to (result, state).
-/

/-- Modelled from the spec: a Bound Query (the executed-template result
object implemented in rdf_util/pl.py, absent from src).  It holds the
ordered sequence of result keys, a key-to-rendered-label lookup, and the
child Bound Query for each key (the next template of the chain executed
against that key; section 4.1 `childQuery`).  Child derivation is kept
as an association list so that everything is executable. -/
inductive RPQuery : Type where
  | mk : List String → List (String × String) → List (String × RPQuery) → RPQuery

/-- The ordered result-key sequence of a Bound Query (spec section 3:
"holds the ordered sequence of result keys"). -/
def RPQuery.keys : RPQuery → List String
  | .mk ks _ _ => ks

/-- The key → rendered-label association of a Bound Query. -/
def RPQuery.labels : RPQuery → List (String × String)
  | .mk _ ls _ => ls

/-- The key → child Bound Query association (the next template in the
chain executed against each key). -/
def RPQuery.children : RPQuery → List (String × RPQuery)
  | .mk _ _ cs => cs

/-- A Bound Query with zero results. -/
def RPQuery.empty : RPQuery := .mk [] [] []

/-- Modelled from the spec: `childQuery(key)` executes the next template
in the chain against `key`; when this is the last template in the chain
the result is absent, which we model as the empty Bound Query (spec
section 4.1: "or an absent result if this is the last template in the
chain (signal: leaf)"). -/
def RPQuery.child_query (q : RPQuery) (key : String) : RPQuery :=
  match q.children.find? (fun kc => kc.1 == key) with
  | some kc => kc.2
  | none => RPQuery.empty

/-- Modelled from the spec: `parent_query[key]`, the rendered label of a
result key (doubletree.py line 120 `value = parent_query[key]`). -/
def RPQuery.getitem (q : RPQuery) (key : String) : String :=
  match q.labels.find? (fun kl => kl.1 == key) with
  | some kl => kl.2
  | none => ""

/-- Modelled from the spec: `len(boundQuery)` is its number of results,
i.e. the length of its key sequence (used truthily in doubletree.py
lines 176 and 228). -/
def RPQuery.len (q : RPQuery) : Nat := q.keys.length

/-- The `_prev_sibling` / `_next_sibling` field of an RPQ_TreeNode:
`None` at construction (unresolved), the sentinel `False`, or a cached
reference to another node (doubletree.py lines 122-123, 128-131,
145-148). -/
inductive SibRef : Type where
  | unresolved
  | noSib
  | node (id : Nat)
deriving DecidableEq, Repr

/-- The per-object state of an RPQ_TreeNode / RPQ_ParentNode
(doubletree.py lines 118-179): the shared Bound Query, the selected key,
the value looked up at construction, the parent reference, whether the
factory chose RPQ_ParentNode over plain RPQ_TreeNode, and the two
sibling-cache fields. -/
structure NodeData : Type where
  parent_query : RPQuery
  key : String
  value : String
  parent : Option Nat
  isParent : Bool
  prevSib : SibRef
  nextSib : SibRef

/-- The RPQ_Node factory (doubletree.py lines 175-179): construct an
RPQ_ParentNode when `len(parent_query.child_query(key))` is non-zero,
otherwise a plain RPQ_TreeNode; both initialize the sibling caches to
None and store `parent_query[key]` as the value (lines 119-124). -/
def RPQ_Node (parent_query : RPQuery) (key : String) (parent : Option Nat) :
    NodeData :=
  { parent_query := parent_query
    key := key
    value := parent_query.getitem key
    parent := parent
    isParent := (parent_query.child_query key).len ≠ 0
    prevSib := .unresolved
    nextSib := .unresolved }

/-- RPQ_ParentNode.load_child_keys (doubletree.py lines 166-167): the
keys of the child Bound Query for this node's key. -/
def load_child_keys (n : NodeData) : List String :=
  (n.parent_query.child_query n.key).keys

/-- The object heap: node ids are indices into `nodes`. -/
structure TreeState : Type where
  nodes : List NodeData

/-- Fetch a node record from the heap. -/
def TreeState.get (s : TreeState) (id : Nat) : Option NodeData :=
  s.nodes[id]?

/-- RPQ_TreeNode.next_sibling (doubletree.py lines 127-141).  Returns
the sibling (as a node id) and the updated heap.  The Python method:
short-circuits on the `False` sentinel; returns a cached node; otherwise
computes the next key index, and when a next key exists builds a new
node through the RPQ_Node factory with the same Bound Query and parent,
stores it in `_next_sibling`, back-links its `_prev_sibling` to `self`,
and returns it.  When no next key exists it falls through and returns
None without writing any field. -/
def next_sibling (s : TreeState) (id : Nat) : Option Nat × TreeState :=
  match s.nodes[id]? with
  | none => (none, s)
  | some n =>
    match n.nextSib with
    | .noSib => (none, s)
    | .node m => (some m, s)
    | .unresolved =>
      let ks := n.parent_query.keys
      let next_key_idx := ks.indexOf n.key + 1
      if next_key_idx < ks.length then
        let key := ks.getD next_key_idx ""
        let newId := s.nodes.length
        let newNode :=
          { RPQ_Node n.parent_query key n.parent with prevSib := .node id }
        let nodes := (s.nodes ++ [newNode]).set id { n with nextSib := .node newId }
        (some newId, ⟨nodes⟩)
      else
        (none, s)

/-- RPQ_TreeNode.prev_sibling (doubletree.py lines 144-158).  The index
arithmetic is over ℤ, as in Python: `next_key_idx` may be -1, and the
guard is the truthiness of `next_key_idx + 1`. -/
def prev_sibling (s : TreeState) (id : Nat) : Option Nat × TreeState :=
  match s.nodes[id]? with
  | none => (none, s)
  | some n =>
    match n.prevSib with
    | .noSib => (none, s)
    | .node m => (some m, s)
    | .unresolved =>
      let ks := n.parent_query.keys
      let next_key_idx : Int := (ks.indexOf n.key : Int) - 1
      if next_key_idx + 1 ≠ 0 then
        let key := ks.getD next_key_idx.toNat ""
        let newId := s.nodes.length
        let newNode :=
          { RPQ_Node n.parent_query key n.parent with nextSib := .node id }
        let nodes := (s.nodes ++ [newNode]).set id { n with prevSib := .node newId }
        (some newId, ⟨nodes⟩)
      else
        (none, s)

/-- The object handed to InstanceView.new_tree (an un-rooted query built
by RPQ.querylist in rdf_util/pl.py, absent from src).  Modelled from the
spec (section 4.1): `copy(newParentValue)` re-executes the template
chain bound to a new parent value and returns a fresh Bound Query. -/
structure RPQueryChain : Type where
  copy : Option String → RPQuery

/-- The displayed tree body of an InstanceView: the dummy walker built
in __init__ (doubletree.py line 199), or a walker built from a first
node (line 230), remembered as the query and first key it wrapped. -/
inductive IVBody : Type where
  | dummy
  | tree (q : RPQuery) (first_key : String)

/-- The mutable state of an InstanceView that new_tree touches: the
stored parent value, the stored bound query and the displayed body
(doubletree.py lines 197-231). -/
structure IVState : Type where
  parent : Option String
  rpquery : Option RPQuery
  body : IVBody

/-- InstanceView.new_tree (doubletree.py lines 222-231): return at once
when no query is given; store the parent when one is given; re-root the
query via copy; when the resulting bound query is truthy (non-empty)
build a fresh walker from its first key, fetching `keys()[0]` (an
IndexError when empty, modelled as the Except error case). -/
def new_tree (st : IVState) (parent : Option String)
    (query : Option RPQueryChain) : Except String IVState :=
  match query with
  | none => .ok st
  | some q =>
    let st1 := match parent with
      | some p => { st with parent := some p }
      | none => st
    let rq := q.copy st1.parent
    let st2 := { st1 with rpquery := some rq }
    if rq.len ≠ 0 then
      match rq.keys[0]? with
      | some k => .ok { st2 with body := .tree rq k }
      | none => .error "IndexError"
    else
      .ok st2

/-- One entry of the instance_ops table (doubletree.py lines 56-65): a
mutating query template (engine predicate plus argument spec) and the
result handler it is paired with. -/
structure Operation : Type where
  template : String
  args : List String
  handler : String
deriving DecidableEq, Repr

/-- Entity-type tags.  The XCAT namespace module (rdf_util/namespaces)
is not part of src; the tags only ever face string equality, so any two
distinct strings are faithful. -/
def XCAT_Recording : String := "xcat:Recording"

def XCAT_Release : String := "xcat:Release"

def XCAT_Artist : String := "xcat:Artist"

def RDFS_Resource : String := "http://www.w3.org/2000/01/rdf-schema#Resource"

/-- The instance_ops dispatch table (doubletree.py lines 56-65): per
entity-type tag, per trigger key, a mutating operation. -/
def instance_ops : List (String × List (String × Operation)) :=
  [ (XCAT_Recording,
      [("enter", { template := "xcat_filepath"
                   args := ["_k:key", "_v:Path"]
                   handler := "mpd_util.add_to_list" })]),
    (XCAT_Release,
      [("enter", { template := "xcat_tracklist_filepaths"
                   args := ["_k:key", "_v:Paths"]
                   handler := "mpd_util.add_to_list" })]) ]

/-- The chained table lookup of doubletree.py line 211: first by the
selected entity type, then by the pressed trigger key, absent when
either lookup misses. -/
def ops_get (tbl : List (String × List (String × Operation)))
    (sel_type trigger : String) : Option Operation :=
  match tbl.find? (fun e => e.1 == sel_type) with
  | none => none
  | some e =>
    match e.2.find? (fun o => o.1 == trigger) with
    | none => none
    | some o => some o.2

/-- Modelled from the spec: fill_query (rdf_util/pl.py, absent from
src) substitutes the selected key into the operation's parameter
placeholder; the filled query is the pair of the operation and the
selected key (doubletree.py lines 213-215). -/
def fill_query (operation : Operation) (selected : String) :
    Operation × String :=
  (operation, selected)

/-- The value held by a focused instance node: pl.py query results carry
an entity-type tag read as `.type` (doubletree.py line 208).  The
initial dummy node's value is None, modelled as Option.none at the call
site. -/
structure EntityValue : Type where
  type : String
deriving DecidableEq, Repr

/-- What one InstanceView.keypress dispatch does: either submit the
filled mutating query to the engine (mixed_query, line 215) followed by
a player reload, or fall through to the default tree-navigation handling
(`super().keypress`, line 218). -/
inductive KeypressResult : Type where
  | engineOp (filled : Operation × String)
  | fallthrough (key : String)
deriving DecidableEq, Repr

/-- InstanceView.keypress (doubletree.py lines 206-219): when the
focused node has a truthy value and the dispatch table has an operation
for (value.type, key), fill it with the focused key and run it;
otherwise delegate to the default navigation handling. -/
def InstanceView_keypress (focus_value : Option EntityValue)
    (focus_key : String) (key : String) : KeypressResult :=
  match focus_value with
  | some v =>
    match ops_get instance_ops v.type key with
    | some operation => .engineOp (fill_query operation focus_key)
    | none => .fallthrough key
  | none => .fallthrough key

/-- One entry of the tree_views registry (doubletree.py lines 21-54):
the root entity type a view applies to.  The query chains of the two
views are never consulted by ViewList.load_views, so they are elided
here. -/
structure ViewDef : Type where
  root : String
deriving DecidableEq, Repr

/-- The tree_views registry (doubletree.py lines 21-54): two views,
instance_list rooted at RDFS.Resource and artist_releases rooted at
XCAT.Artist. -/
def tree_views : List (String × ViewDef) :=
  [ ("instance_list", { root := RDFS_Resource }),
    ("artist_releases", { root := XCAT_Artist }) ]

/-- ViewList.load_views (doubletree.py lines 254-266), parameterized by
the ancestor closure returned by the external class-hierarchy
collaborator (`all_classes(self.pl, leaf_class)`): for each class of the
closure, append every view name whose registered root type equals that
class. -/
def load_views (classes : List String) : List String :=
  classes.flatMap (fun rdfs_class =>
    (tree_views.filter (fun vw => vw.2.root == rdfs_class)).map
      (fun vw => vw.1))

/-- A Bound Query whose child derivation may raise an engine fault
(PrologError), for the error-propagation analysis: each key's child
query execution either yields a child Bound Query or raises a
diagnostic.  Modelled from the spec for the rdf_util/pl.py side
(section 4.1 Error: engine faults propagate as EngineQueryError). -/
inductive RPQueryE : Type where
  | mk : List String → List (String × Except String RPQueryE) → RPQueryE

/-- Key sequence of a fallible Bound Query. -/
def RPQueryE.keys : RPQueryE → List String
  | .mk ks _ => ks

/-- The empty fallible Bound Query. -/
def RPQueryE.empty : RPQueryE := .mk [] []

/-- child_query against the fallible Bound Query: the engine either
returns the child result set or raises. -/
def RPQueryE.child_query (q : RPQueryE) (key : String) :
    Except String RPQueryE :=
  match q with
  | .mk _ cs =>
    match cs.find? (fun kc => kc.1 == key) with
    | some kc => kc.2
    | none => .ok RPQueryE.empty

/-- Which node class the RPQ_Node factory picks. -/
inductive NodeKind : Type where
  | parentNode
  | leafNode
deriving DecidableEq, Repr

/-- The RPQ_Node factory (doubletree.py lines 175-179) under fallible
child derivation.  The Python function body has no try/except: an
engine fault raised by `parent_query.child_query(key)` propagates out
of the factory unchanged. -/
def RPQ_NodeE (parent_query : RPQueryE) (key : String) :
    Except String NodeKind :=
  match parent_query.child_query key with
  | .error e => .error e
  | .ok cq => .ok (if cq.keys.length ≠ 0 then .parentNode else .leafNode)

/-- Node classification including the degraded error leaf that spec
section 7 describes. -/
inductive NodeKindSpec : Type where
  | parentNode
  | leafNode
  | errorLeaf (diagnostic : String)
deriving DecidableEq, Repr

/-- Modelled from the spec: the node factory that section 7 claims —
"query execution failures are caught at the tree-node boundary and
converted into a degraded (leaf, error-labeled) node".  Stated here only
to be compared against RPQ_NodeE, the factory the code implements. -/
def RPQ_NodeSpecClaim (parent_query : RPQueryE) (key : String) :
    NodeKindSpec :=
  match parent_query.child_query key with
  | .error e => .errorLeaf e
  | .ok cq => if cq.keys.length ≠ 0 then .parentNode else .leafNode

/-- How the doubletree session ends (doubletree.py lines 375-388). -/
inductive SessionOutcome : Type where
  | normal
  | crashedWithDiagnostic (diagnostic : String)
deriving DecidableEq, Repr

/-- The doubletree entry point's error handling (doubletree.py lines
379-388): the only except handler wraps the whole event loop; a
PrologError escaping the loop terminates the session, with the
diagnostic extracted from the exception text and printed. -/
def doubletree (event_loop : Except String Unit) : SessionOutcome :=
  match event_loop with
  | .ok _ => .normal
  | .error e => .crashedWithDiagnostic e

/-! Concrete fixtures used by witnesses and counterexamples. -/

/-- A child Bound Query with two results. -/
def qChild : RPQuery := .mk ["c1", "c2"] [("c1", "C1"), ("c2", "C2")] []

/-- A Bound Query with keys a (which has a non-empty child result) and
b (whose child result is empty, so b wraps as a leaf). -/
def qTop : RPQuery :=
  .mk ["a", "b"] [("a", "A"), ("b", "B")] [("a", qChild)]

/-- A heap holding one node over qTop at key a (the first key). -/
def sFirst : TreeState := ⟨[RPQ_Node qTop "a" none]⟩

/-- A heap holding one node over qTop at key b (the last key). -/
def sLast : TreeState := ⟨[RPQ_Node qTop "b" none]⟩

/-! ### C1 -/

/-- C1: a node built by the RPQ_Node factory is a leaf (plain
RPQ_TreeNode) iff the child query for its key yields zero result
bindings; a non-empty child result yields an RPQ_ParentNode whose
load_child_keys are exactly the keys of that child Bound Query. -/
theorem RPQ_Node_leaf_iff_no_child_results (pq : RPQuery) (key : String)
    (parent : Option Nat) :
    ((RPQ_Node pq key parent).isParent = false ↔
      (pq.child_query key).keys = [])
    ∧ ((RPQ_Node pq key parent).isParent = true →
      load_child_keys (RPQ_Node pq key parent) = (pq.child_query key).keys) := by
  constructor
  · simp [RPQ_Node, RPQuery.len, List.length_eq_zero]
  · intro _
    rfl

/-- Witness for C1 at concrete inputs: key a is a parent with child
keys c1, c2; the iff holds at key b, a leaf. -/
theorem RPQ_Node_leaf_iff_no_child_results_witness :
    ((RPQ_Node qTop "b" none).isParent = false ↔
      (qTop.child_query "b").keys = [])
    ∧ load_child_keys (RPQ_Node qTop "a" none) = (qTop.child_query "a").keys :=
  ⟨(RPQ_Node_leaf_iff_no_child_results qTop "b" none).1,
   (RPQ_Node_leaf_iff_no_child_results qTop "a" none).2 (by decide)⟩

/-! ### C8 -/

/-- C8: prev_sibling on a node whose key sits at index 0 of its Bound
Query's key order returns None without touching the heap: the
`next_key_idx + 1` guard rejects the index -1, so keys()[-1] (the last
key) is never fetched and no wrap-around node is built. -/
theorem prev_sibling_at_index_zero (s : TreeState) (id : Nat) (n : NodeData)
    (hget : s.nodes[id]? = some n)
    (hun : n.prevSib = .unresolved)
    (hidx : n.parent_query.keys.indexOf n.key = 0) :
    prev_sibling s id = (none, s) := by
  simp [prev_sibling, hget, hun, hidx]

/-- Witness for C8: the node over qTop at key a (index 0). -/
theorem prev_sibling_at_index_zero_witness : prev_sibling sFirst 0 = (none, sFirst) :=
  prev_sibling_at_index_zero sFirst 0 (RPQ_Node qTop "a" none) rfl rfl (by decide)

/-! ### C10 -/

/-- C10: InstanceView.new_tree called with query=None returns at once
and leaves the stored parent, the stored rpquery and the displayed body
exactly as they were, whatever parent argument is passed. -/
theorem new_tree_no_query_is_noop (st : IVState) (parent : Option String) :
    new_tree st parent none = .ok st := rfl

/-! ### C5 -/

/-- C5: binding a view to a root for which the engine returns an empty
result set completes without an error: the empty Bound Query is stored
(a tree with zero top-level keys), `keys()[0]` is never fetched, and the
displayed body is left as it was. -/
theorem new_tree_empty_result_no_error (st : IVState) (p : String)
    (q : RPQueryChain) (h : (q.copy (some p)).keys = []) :
    new_tree st (some p) (some q) =
      .ok { parent := some p, rpquery := some (q.copy (some p)), body := st.body }
    ∧ (q.copy (some p)).len = 0 := by
  constructor
  · simp [new_tree, RPQuery.len, h]
  · simp [RPQuery.len, h]

/-- A query chain whose engine result is empty for every root. -/
def chainEmpty : RPQueryChain := ⟨fun _ => RPQuery.empty⟩

/-- An InstanceView state displaying the initial dummy walker. -/
def ivInit : IVState := { parent := none, rpquery := none, body := .dummy }

/-- Witness for C5: the empty chain bound to a concrete root. -/
theorem new_tree_empty_result_no_error_witness :
    new_tree ivInit (some "root") (some chainEmpty) =
      .ok { parent := some "root"
            rpquery := some (chainEmpty.copy (some "root"))
            body := ivInit.body }
    ∧ (chainEmpty.copy (some "root")).len = 0 :=
  new_tree_empty_result_no_error ivInit "root" chainEmpty rfl

/-! ### C6 -/

/-- C6: a keypress on a focused instance node dispatches to the engine
only when the instance_ops table has an entry for the node's entity-type
tag and, within it, for the pressed trigger key; otherwise — no table
entry, or no focused value — the dispatch falls through to the default
navigation handling and no engine query is submitted.  When an entry
exists, the mutating query is filled with the selected key and run. -/
theorem keypress_dispatch_table (fv : Option EntityValue)
    (fk key : String) :
    (fv = none → InstanceView_keypress fv fk key = .fallthrough key)
    ∧ (∀ v, fv = some v → ops_get instance_ops v.type key = none →
        InstanceView_keypress fv fk key = .fallthrough key)
    ∧ (∀ v op, fv = some v → ops_get instance_ops v.type key = some op →
        InstanceView_keypress fv fk key = .engineOp (fill_query op fk)) := by
  refine ⟨fun h => ?_, fun v hv hop => ?_, fun v op hv hop => ?_⟩
  · simp [InstanceView_keypress, h]
  · simp [InstanceView_keypress, hv, hop]
  · simp [InstanceView_keypress, hv, hop]

/-- Witness for C6: the Recording tag has no entry for key x, so the
keypress falls through; its enter entry dispatches the filepath query
filled with the focused key. -/
theorem keypress_dispatch_table_witness :
    InstanceView_keypress (some ⟨XCAT_Recording⟩) "node1" "x" = .fallthrough "x"
    ∧ InstanceView_keypress (some ⟨XCAT_Recording⟩) "node1" "enter" =
        .engineOp (fill_query { template := "xcat_filepath"
                                args := ["_k:key", "_v:Path"]
                                handler := "mpd_util.add_to_list" } "node1") :=
  ⟨(keypress_dispatch_table (some ⟨XCAT_Recording⟩) "node1" "x").2.1
     ⟨XCAT_Recording⟩ rfl (by decide),
   (keypress_dispatch_table (some ⟨XCAT_Recording⟩) "node1" "enter").2.2
     ⟨XCAT_Recording⟩ _ rfl (by decide)⟩

/-! ### C7 -/

/-- C7: load_views, applied to the ancestor closure supplied by the
class-hierarchy collaborator, lists a view name iff the registry holds a
view of that name whose registered root type is one of the classes of
the closure. -/
theorem load_views_exactly_matching_roots (classes : List String)
    (v : String) :
    v ∈ load_views classes ↔
      ∃ vw ∈ tree_views, vw.1 = v ∧ vw.2.root ∈ classes := by
  simp only [load_views, List.mem_flatMap, List.mem_map, List.mem_filter,
    beq_iff_eq]
  constructor
  · rintro ⟨c, hc, vw, ⟨hvw, hroot⟩, hname⟩
    exact ⟨vw, hvw, hname, hroot ▸ hc⟩
  · rintro ⟨vw, hvw, hname, hroot⟩
    exact ⟨vw.2.root, hroot, vw, ⟨hvw, rfl⟩, hname⟩

/-! ### C3 -/

/-- C3 (failing input): next_sibling on the node whose key b is last in
qTop's key order returns None with the heap unchanged — the
`_next_sibling` field is still None (unresolved), not the False
sentinel, so nothing short-circuits and every later call walks the
key-index computation again.  The `is False` branch at doubletree.py
line 128 is unreachable: no statement ever assigns the sentinel. -/
theorem next_sibling_sentinel_never_cached :
    (next_sibling sLast 0 = (none, sLast)
      ∧ (sLast.nodes[0]?).map NodeData.nextSib = some .unresolved)
    ∧ (prev_sibling sFirst 0 = (none, sFirst)
      ∧ (sFirst.nodes[0]?).map NodeData.prevSib = some .unresolved) :=
  ⟨⟨rfl, rfl⟩, rfl, rfl⟩

/-! ### C4 -/

/-- A Bound Query whose child derivation for key k raises an engine
fault. -/
def pqFault : RPQueryE := .mk ["k"] [("k", .error "engine fault")]

/-- C4 (counterexample): at a key whose child derivation raises, the
RPQ_Node factory of the code propagates the PrologError instead of
producing any node, while the factory the spec describes would return a
degraded error-labeled leaf. -/
theorem tree_node_error_escapes :
    RPQ_NodeE pqFault "k" = .error "engine fault"
    ∧ RPQ_NodeSpecClaim pqFault "k" = .errorLeaf "engine fault" :=
  ⟨rfl, rfl⟩

/-- C4 (amended): an engine fault raised during child derivation
propagates out of tree-node construction unchanged (RPQ_Node has no
handler), and a fault escaping the event loop ends the session through
the sole handler in doubletree(), which prints the diagnostic. -/
theorem engine_fault_propagates_to_session (pq : RPQueryE) (key e : String)
    (h : pq.child_query key = .error e) :
    RPQ_NodeE pq key = .error e
    ∧ doubletree (.error e) = .crashedWithDiagnostic e := by
  simp [RPQ_NodeE, h, doubletree]

/-- Witness for the amended C4 at the concrete faulting query. -/
theorem engine_fault_propagates_to_session_witness :
    RPQ_NodeE pqFault "k" = .error "engine fault"
    ∧ doubletree (.error "engine fault") =
        .crashedWithDiagnostic "engine fault" :=
  engine_fault_propagates_to_session pqFault "k" "engine fault" rfl

/-! ### Sibling cross-link invariant (for C2 and C9) -/

/-- Node i's next-sibling cache points at node j. -/
def linkedNext (s : TreeState) (i j : Nat) : Prop :=
  ∃ n, s.nodes[i]? = some n ∧ n.nextSib = .node j

/-- Node i's prev-sibling cache points at node j. -/
def linkedPrev (s : TreeState) (i j : Nat) : Prop :=
  ∃ n, s.nodes[i]? = some n ∧ n.prevSib = .node j

/-- A heap is well formed when every cached sibling link is cross-linked
with its reverse link, as next_sibling and prev_sibling establish at
construction (doubletree.py lines 138-140 and 155-157). -/
def WF (s : TreeState) : Prop :=
  ∀ i j, (linkedNext s i j → linkedPrev s j i)
    ∧ (linkedPrev s i j → linkedNext s j i)

lemma length_lt_of_getElem? {α : Type} {l : List α} {i : Nat} {x : α}
    (h : l[i]? = some x) : i < l.length :=
  (List.getElem?_eq_some.mp h).choose

lemma next_sibling_cached {s : TreeState} {i j : Nat} {nd : NodeData}
    (hget : s.nodes[i]? = some nd) (hn : nd.nextSib = .node j) :
    next_sibling s i = (some j, s) := by
  simp [next_sibling, hget, hn]

lemma prev_sibling_cached {s : TreeState} {i j : Nat} {nd : NodeData}
    (hget : s.nodes[i]? = some nd) (hn : nd.prevSib = .node j) :
    prev_sibling s i = (some j, s) := by
  simp [prev_sibling, hget, hn]

/-- The heap after next_sibling resolves a fresh next sibling of node i
holding record nd: the new node is appended and node i's record gains
the forward link. -/
def nextResolved (s : TreeState) (i : Nat) (nd : NodeData) : TreeState :=
  ⟨(s.nodes ++
      [{ RPQ_Node nd.parent_query
           (nd.parent_query.keys.getD (nd.parent_query.keys.indexOf nd.key + 1) "")
           nd.parent with
         prevSib := .node i }]).set i { nd with nextSib := .node s.nodes.length }⟩

/-- The heap after prev_sibling resolves a fresh previous sibling. -/
def prevResolved (s : TreeState) (i : Nat) (nd : NodeData) : TreeState :=
  ⟨(s.nodes ++
      [{ RPQ_Node nd.parent_query
           (nd.parent_query.keys.getD
             ((nd.parent_query.keys.indexOf nd.key : Int) - 1).toNat "")
           nd.parent with
         nextSib := .node i }]).set i { nd with prevSib := .node s.nodes.length }⟩

lemma next_sibling_fresh {s : TreeState} {i : Nat} {nd : NodeData}
    (hget : s.nodes[i]? = some nd) (hn : nd.nextSib = .unresolved)
    (hlt : nd.parent_query.keys.indexOf nd.key + 1 <
      nd.parent_query.keys.length) :
    next_sibling s i = (some s.nodes.length, nextResolved s i nd) := by
  simp [next_sibling, hget, hn, hlt, nextResolved]

lemma prev_sibling_fresh {s : TreeState} {i : Nat} {nd : NodeData}
    (hget : s.nodes[i]? = some nd) (hn : nd.prevSib = .unresolved)
    (hpos : nd.parent_query.keys.indexOf nd.key ≠ 0) :
    prev_sibling s i = (some s.nodes.length, prevResolved s i nd) := by
  simp [prev_sibling, hget, hn, sub_add_cancel, Nat.cast_eq_zero, hpos,
    prevResolved]

lemma next_sibling_stuck {s : TreeState} {i : Nat} {nd : NodeData}
    (hget : s.nodes[i]? = some nd) (hn : nd.nextSib = .unresolved)
    (hge : ¬ nd.parent_query.keys.indexOf nd.key + 1 <
      nd.parent_query.keys.length) :
    next_sibling s i = (none, s) := by
  simp [next_sibling, hget, hn, hge]

lemma prev_sibling_stuck {s : TreeState} {i : Nat} {nd : NodeData}
    (hget : s.nodes[i]? = some nd) (hn : nd.prevSib = .unresolved)
    (hz : nd.parent_query.keys.indexOf nd.key = 0) :
    prev_sibling s i = (none, s) := by
  simp [prev_sibling, hget, hn, hz]

lemma nextResolved_self {s : TreeState} {i : Nat} {nd : NodeData}
    (hget : s.nodes[i]? = some nd) :
    (nextResolved s i nd).nodes[i]? =
      some { nd with nextSib := .node s.nodes.length } := by
  have hi : i < s.nodes.length := length_lt_of_getElem? hget
  unfold nextResolved
  exact List.getElem?_set_eq_of_lt _ (by simp; omega)

lemma nextResolved_new {s : TreeState} {i : Nat} {nd : NodeData}
    (hget : s.nodes[i]? = some nd) :
    (nextResolved s i nd).nodes[s.nodes.length]? =
      some { RPQ_Node nd.parent_query
               (nd.parent_query.keys.getD
                 (nd.parent_query.keys.indexOf nd.key + 1) "")
               nd.parent with
             prevSib := .node i } := by
  have hi : i < s.nodes.length := length_lt_of_getElem? hget
  unfold nextResolved
  rw [List.getElem?_set_ne (by omega)]
  exact List.getElem?_concat_length _ _

lemma nextResolved_other {s : TreeState} {i : Nat} {nd : NodeData} (k : Nat)
    (hki : k ≠ i) (hkL : k ≠ s.nodes.length) :
    (nextResolved s i nd).nodes[k]? = s.nodes[k]? := by
  unfold nextResolved
  rw [List.getElem?_set_ne (fun h => hki h.symm), List.getElem?_append]
  split
  · rfl
  · rename_i h
    rw [List.getElem?_eq_none (by simp; omega),
      List.getElem?_eq_none (by omega)]

lemma prevResolved_self {s : TreeState} {i : Nat} {nd : NodeData}
    (hget : s.nodes[i]? = some nd) :
    (prevResolved s i nd).nodes[i]? =
      some { nd with prevSib := .node s.nodes.length } := by
  have hi : i < s.nodes.length := length_lt_of_getElem? hget
  unfold prevResolved
  exact List.getElem?_set_eq_of_lt _ (by simp; omega)

lemma prevResolved_new {s : TreeState} {i : Nat} {nd : NodeData}
    (hget : s.nodes[i]? = some nd) :
    (prevResolved s i nd).nodes[s.nodes.length]? =
      some { RPQ_Node nd.parent_query
               (nd.parent_query.keys.getD
                 ((nd.parent_query.keys.indexOf nd.key : Int) - 1).toNat "")
               nd.parent with
             nextSib := .node i } := by
  have hi : i < s.nodes.length := length_lt_of_getElem? hget
  unfold prevResolved
  rw [List.getElem?_set_ne (by omega)]
  exact List.getElem?_concat_length _ _

lemma prevResolved_other {s : TreeState} {i : Nat} {nd : NodeData} (k : Nat)
    (hki : k ≠ i) (hkL : k ≠ s.nodes.length) :
    (prevResolved s i nd).nodes[k]? = s.nodes[k]? := by
  unfold prevResolved
  rw [List.getElem?_set_ne (fun h => hki h.symm), List.getElem?_append]
  split
  · rfl
  · rename_i h
    rw [List.getElem?_eq_none (by simp; omega),
      List.getElem?_eq_none (by omega)]

lemma WF_nextResolved {s : TreeState} (hWF : WF s) {i : Nat} {nd : NodeData}
    (hget : s.nodes[i]? = some nd) (hn : nd.nextSib = .unresolved) :
    WF (nextResolved s i nd) := by
  intro a b
  constructor
  · rintro ⟨na, hna, hnext⟩
    by_cases hai : a = i
    · subst hai
      rw [nextResolved_self hget] at hna
      obtain rfl := Option.some.inj hna
      simp only [] at hnext
      obtain rfl : s.nodes.length = b := SibRef.node.inj hnext
      exact ⟨_, nextResolved_new hget, rfl⟩
    · by_cases haL : a = s.nodes.length
      · subst haL
        rw [nextResolved_new hget] at hna
        obtain rfl := Option.some.inj hna
        simp [RPQ_Node] at hnext
      · rw [nextResolved_other a hai haL] at hna
        obtain ⟨nb, hnb, hprev⟩ := (hWF a b).1 ⟨na, hna, hnext⟩
        by_cases hbi : b = i
        · subst hbi
          rw [hget] at hnb
          obtain rfl := Option.some.inj hnb
          exact ⟨_, nextResolved_self hget, hprev⟩
        · have hbL : b ≠ s.nodes.length := by
            intro h
            subst h
            exact absurd (length_lt_of_getElem? hnb) (by omega)
          exact ⟨nb, by rw [nextResolved_other b hbi hbL]; exact hnb, hprev⟩
  · rintro ⟨na, hna, hprev⟩
    by_cases hai : a = i
    · subst hai
      rw [nextResolved_self hget] at hna
      obtain rfl := Option.some.inj hna
      simp only [] at hprev
      obtain ⟨nb, hnb, hnext⟩ := (hWF a b).2 ⟨nd, hget, hprev⟩
      by_cases hbi : b = a
      · subst hbi
        rw [hget] at hnb
        obtain rfl := Option.some.inj hnb
        rw [hn] at hnext
        exact absurd hnext (by simp)
      · have hbL : b ≠ s.nodes.length := by
          intro h
          subst h
          exact absurd (length_lt_of_getElem? hnb) (by omega)
        exact ⟨nb, by rw [nextResolved_other b hbi hbL]; exact hnb, hnext⟩
    · by_cases haL : a = s.nodes.length
      · subst haL
        rw [nextResolved_new hget] at hna
        obtain rfl := Option.some.inj hna
        simp only [] at hprev
        obtain rfl : i = b := SibRef.node.inj hprev
        exact ⟨_, nextResolved_self hget, rfl⟩
      · rw [nextResolved_other a hai haL] at hna
        obtain ⟨nb, hnb, hnext⟩ := (hWF a b).2 ⟨na, hna, hprev⟩
        by_cases hbi : b = i
        · subst hbi
          rw [hget] at hnb
          obtain rfl := Option.some.inj hnb
          rw [hn] at hnext
          exact absurd hnext (by simp)
        · have hbL : b ≠ s.nodes.length := by
            intro h
            subst h
            exact absurd (length_lt_of_getElem? hnb) (by omega)
          exact ⟨nb, by rw [nextResolved_other b hbi hbL]; exact hnb, hnext⟩

lemma WF_prevResolved {s : TreeState} (hWF : WF s) {i : Nat} {nd : NodeData}
    (hget : s.nodes[i]? = some nd) (hn : nd.prevSib = .unresolved) :
    WF (prevResolved s i nd) := by
  intro a b
  constructor
  · rintro ⟨na, hna, hnext⟩
    by_cases hai : a = i
    · subst hai
      rw [prevResolved_self hget] at hna
      obtain rfl := Option.some.inj hna
      simp only [] at hnext
      obtain ⟨nb, hnb, hprev⟩ := (hWF a b).1 ⟨nd, hget, hnext⟩
      by_cases hbi : b = a
      · subst hbi
        rw [hget] at hnb
        obtain rfl := Option.some.inj hnb
        rw [hn] at hprev
        exact absurd hprev (by simp)
      · have hbL : b ≠ s.nodes.length := by
          intro h
          subst h
          exact absurd (length_lt_of_getElem? hnb) (by omega)
        exact ⟨nb, by rw [prevResolved_other b hbi hbL]; exact hnb, hprev⟩
    · by_cases haL : a = s.nodes.length
      · subst haL
        rw [prevResolved_new hget] at hna
        obtain rfl := Option.some.inj hna
        simp only [] at hnext
        obtain rfl : i = b := SibRef.node.inj hnext
        exact ⟨_, prevResolved_self hget, rfl⟩
      · rw [prevResolved_other a hai haL] at hna
        obtain ⟨nb, hnb, hprev⟩ := (hWF a b).1 ⟨na, hna, hnext⟩
        by_cases hbi : b = i
        · subst hbi
          rw [hget] at hnb
          obtain rfl := Option.some.inj hnb
          rw [hn] at hprev
          exact absurd hprev (by simp)
        · have hbL : b ≠ s.nodes.length := by
            intro h
            subst h
            exact absurd (length_lt_of_getElem? hnb) (by omega)
          exact ⟨nb, by rw [prevResolved_other b hbi hbL]; exact hnb, hprev⟩
  · rintro ⟨na, hna, hprev⟩
    by_cases hai : a = i
    · subst hai
      rw [prevResolved_self hget] at hna
      obtain rfl := Option.some.inj hna
      simp only [] at hprev
      obtain rfl : s.nodes.length = b := SibRef.node.inj hprev
      exact ⟨_, prevResolved_new hget, rfl⟩
    · by_cases haL : a = s.nodes.length
      · subst haL
        rw [prevResolved_new hget] at hna
        obtain rfl := Option.some.inj hna
        simp [RPQ_Node] at hprev
      · rw [prevResolved_other a hai haL] at hna
        obtain ⟨nb, hnb, hnext⟩ := (hWF a b).2 ⟨na, hna, hprev⟩
        by_cases hbi : b = i
        · subst hbi
          rw [hget] at hnb
          obtain rfl := Option.some.inj hnb
          exact ⟨_, prevResolved_self hget, hnext⟩
        · have hbL : b ≠ s.nodes.length := by
            intro h
            subst h
            exact absurd (length_lt_of_getElem? hnb) (by omega)
          exact ⟨nb, by rw [prevResolved_other b hbi hbL]; exact hnb, hnext⟩

/-! ### C2 -/

/-- C2: over a well-formed heap, when n.next_sibling() exists,
prev_sibling() on the returned node returns n itself without touching
the heap, and symmetrically for prev_sibling().next_sibling();
furthermore repeating the original call returns the same node with the
heap unchanged (the link is cached), and one navigation step keeps the
heap well formed — the links are cross-linked at construction
(doubletree.py lines 138-140 and 155-157). -/
theorem sibling_links_symmetric (s : TreeState) (hWF : WF s) (n m : Nat) :
    ((next_sibling s n).1 = some m →
      prev_sibling (next_sibling s n).2 m = (some n, (next_sibling s n).2)
      ∧ next_sibling (next_sibling s n).2 n = (some m, (next_sibling s n).2))
    ∧ ((prev_sibling s n).1 = some m →
      next_sibling (prev_sibling s n).2 m = (some n, (prev_sibling s n).2)
      ∧ prev_sibling (prev_sibling s n).2 n = (some m, (prev_sibling s n).2))
    ∧ WF (next_sibling s n).2 ∧ WF (prev_sibling s n).2 := by
  refine ⟨?_, ?_, ?_, ?_⟩
  · intro hm
    cases hget : s.nodes[n]? with
    | none => rw [show next_sibling s n = (none, s) by simp [next_sibling, hget]] at hm ⊢; cases hm
    | some nd =>
      cases hns : nd.nextSib with
      | noSib =>
        rw [show next_sibling s n = (none, s) by simp [next_sibling, hget, hns]] at hm
        cases hm
      | node j =>
        rw [next_sibling_cached hget hns] at hm ⊢
        obtain rfl : j = m := Option.some.inj hm
        constructor
        · obtain ⟨nm, hnm, hprev⟩ := (hWF n j).1 ⟨nd, hget, hns⟩
          exact prev_sibling_cached hnm hprev
        · exact next_sibling_cached hget hns
      | unresolved =>
        by_cases hlt : nd.parent_query.keys.indexOf nd.key + 1 <
            nd.parent_query.keys.length
        · rw [next_sibling_fresh hget hns hlt] at hm ⊢
          obtain rfl : s.nodes.length = m := Option.some.inj hm
          constructor
          · exact prev_sibling_cached (nextResolved_new hget) rfl
          · exact next_sibling_cached (nextResolved_self hget) rfl
        · rw [next_sibling_stuck hget hns hlt] at hm
          cases hm
  · intro hm
    cases hget : s.nodes[n]? with
    | none => rw [show prev_sibling s n = (none, s) by simp [prev_sibling, hget]] at hm; cases hm
    | some nd =>
      cases hns : nd.prevSib with
      | noSib => rw [show prev_sibling s n = (none, s) by simp [prev_sibling, hget, hns]] at hm; cases hm
      | node j =>
        rw [prev_sibling_cached hget hns] at hm ⊢
        obtain rfl : j = m := Option.some.inj hm
        constructor
        · obtain ⟨nm, hnm, hnext⟩ := (hWF n j).2 ⟨nd, hget, hns⟩
          exact next_sibling_cached hnm hnext
        · exact prev_sibling_cached hget hns
      | unresolved =>
        by_cases hz : nd.parent_query.keys.indexOf nd.key = 0
        · rw [prev_sibling_stuck hget hns hz] at hm
          cases hm
        · rw [prev_sibling_fresh hget hns hz] at hm ⊢
          obtain rfl : s.nodes.length = m := Option.some.inj hm
          constructor
          · exact next_sibling_cached (prevResolved_new hget) rfl
          · exact prev_sibling_cached (prevResolved_self hget) rfl
  · cases hget : s.nodes[n]? with
    | none => rw [show next_sibling s n = (none, s) by simp [next_sibling, hget]]; exact hWF
    | some nd =>
      cases hns : nd.nextSib with
      | noSib => rw [show next_sibling s n = (none, s) by simp [next_sibling, hget, hns]]; exact hWF
      | node j => rw [next_sibling_cached hget hns]; exact hWF
      | unresolved =>
        by_cases hlt : nd.parent_query.keys.indexOf nd.key + 1 <
            nd.parent_query.keys.length
        · rw [next_sibling_fresh hget hns hlt]
          exact WF_nextResolved hWF hget hns
        · rw [next_sibling_stuck hget hns hlt]; exact hWF
  · cases hget : s.nodes[n]? with
    | none => rw [show prev_sibling s n = (none, s) by simp [prev_sibling, hget]]; exact hWF
    | some nd =>
      cases hns : nd.prevSib with
      | noSib => rw [show prev_sibling s n = (none, s) by simp [prev_sibling, hget, hns]]; exact hWF
      | node j => rw [prev_sibling_cached hget hns]; exact hWF
      | unresolved =>
        by_cases hz : nd.parent_query.keys.indexOf nd.key = 0
        · rw [prev_sibling_stuck hget hns hz]; exact hWF
        · rw [prev_sibling_fresh hget hns hz]
          exact WF_prevResolved hWF hget hns

/-- A one-node heap with both sibling caches unresolved is well
formed. -/
lemma WF_singleton (nd : NodeData) (h1 : nd.nextSib = .unresolved)
    (h2 : nd.prevSib = .unresolved) : WF ⟨[nd]⟩ := by
  intro i j
  constructor
  · rintro ⟨n, hn, hl⟩
    cases i with
    | zero =>
      rw [List.getElem?_cons_zero] at hn
      obtain rfl := Option.some.inj hn
      rw [h1] at hl
      exact absurd hl (by simp)
    | succ k => simp at hn
  · rintro ⟨n, hn, hl⟩
    cases i with
    | zero =>
      rw [List.getElem?_cons_zero] at hn
      obtain rfl := Option.some.inj hn
      rw [h2] at hl
      exact absurd hl (by simp)
    | succ k => simp at hn

/-- Witness for C2: in the one-node heap over qTop at key a, resolving
the next sibling yields node 1, whose prev_sibling returns node 0 with
the heap untouched, and a repeated next_sibling call returns the cached
node 1. -/
theorem sibling_links_symmetric_witness :
    prev_sibling (next_sibling sFirst 0).2 1 = (some 0, (next_sibling sFirst 0).2)
    ∧ next_sibling (next_sibling sFirst 0).2 0 = (some 1, (next_sibling sFirst 0).2) :=
  (sibling_links_symmetric sFirst (WF_singleton _ rfl rfl) 0 1).1 rfl

/-! ### C9 -/

/-- C9: a sibling node freshly created by next_sibling() or
prev_sibling() shares the Bound Query (parent_query) and the parent
reference of the node it was derived from — doubletree.py lines 138-139
and 155-156 pass `self.parent_query` and `self.get_parent()` to the
RPQ_Node factory. -/
theorem sibling_shares_query_and_parent (s : TreeState) (n m : Nat)
    (nd : NodeData) (hget : s.nodes[n]? = some nd) :
    (nd.nextSib = .unresolved → (next_sibling s n).1 = some m →
      ∃ nm, (next_sibling s n).2.nodes[m]? = some nm
        ∧ nm.parent_query = nd.parent_query ∧ nm.parent = nd.parent)
    ∧ (nd.prevSib = .unresolved → (prev_sibling s n).1 = some m →
      ∃ nm, (prev_sibling s n).2.nodes[m]? = some nm
        ∧ nm.parent_query = nd.parent_query ∧ nm.parent = nd.parent) := by
  constructor
  · intro hun hm
    by_cases hlt : nd.parent_query.keys.indexOf nd.key + 1 <
        nd.parent_query.keys.length
    · rw [next_sibling_fresh hget hun hlt] at hm ⊢
      obtain rfl : s.nodes.length = m := Option.some.inj hm
      exact ⟨_, nextResolved_new hget, rfl, rfl⟩
    · rw [next_sibling_stuck hget hun hlt] at hm
      cases hm
  · intro hun hm
    by_cases hz : nd.parent_query.keys.indexOf nd.key = 0
    · rw [prev_sibling_stuck hget hun hz] at hm
      cases hm
    · rw [prev_sibling_fresh hget hun hz] at hm ⊢
      obtain rfl : s.nodes.length = m := Option.some.inj hm
      exact ⟨_, prevResolved_new hget, rfl, rfl⟩

/-- Witness for C9: the sibling of the node over qTop at key a shares
qTop and the (absent) parent. -/
theorem sibling_shares_query_and_parent_witness :
    ∃ nm, (next_sibling sFirst 0).2.nodes[1]? = some nm
      ∧ nm.parent_query = (RPQ_Node qTop "a" none).parent_query
      ∧ nm.parent = (RPQ_Node qTop "a" none).parent :=
  (sibling_shares_query_and_parent sFirst 0 1 (RPQ_Node qTop "a" none) rfl).1
    rfl rfl
